import Mathlib

/-
  Verification development for the ai-wot repository (Nostr web-of-trust for
  AI agents).  The JavaScript sources are shallowly embedded: events are
  records over String / Int, JS numbers are modelled as real numbers, JS
  Maps with a `|| 0` default are total functions, and the asynchronous
  relay layer is replaced by explicit event stores passed as arguments.
-/

namespace AiWot

/-- A Nostr event as consumed by the library (src/lib/*.js).  `id` and the
signature come from the external signing primitive; the signature is not
modelled.  Tags are lists of strings, as in the wire format. -/
structure NEvent where
  id : String
  pubkey : String
  kind : Int
  created_at : Int
  content : String
  tags : List (List String)
deriving DecidableEq

/-- JS `tag[i]`: out-of-range access yields `undefined`, which never equals a
namespace or type string; modelled as the empty string default. -/
def tagAt (t : List String) (i : Nat) : String := t.getD i ""

/-- Shared helper from src/lib/receipts.js (`findTagValue`): the value of the
first tag whose name matches, `none` when absent (JS `null`/`undefined`). -/
def findTagValue (tags : List (List String)) (name : String) : Option String :=
  (tags.find? (fun t => tagAt t 0 == name)).bind (fun t => t.get? 1)

-- ─── Constants of src/lib/scoring.js ─────────────────────────────

def NAMESPACE : String := "ai.wot"

noncomputable def ZAP_MULTIPLIER : ℝ := 0.5

noncomputable def DAMPENING_FACTOR : ℝ := 0.5

def DEFAULT_HALF_LIFE_DAYS : ℚ := 90

/-- The `VALID_TYPES` list of the scoring module checked into src/lib/scoring.js. -/
def VALID_TYPES : List String :=
  ["service-quality", "identity-continuity", "general-trust"]

/-- The `TYPE_MULTIPLIERS` table of src/lib/scoring.js as a total function; the default
branch is unreachable because the kernel checks `VALID_TYPES` first. -/
noncomputable def TYPE_MULTIPLIERS (t : String) : ℝ :=
  if t == "service-quality" then 1.5
  else if t == "identity-continuity" then 1
  else if t == "general-trust" then 0.8
  else 0

-- ─── Temporal decay and zap weight (src/lib/scoring.js) ──────────

/-- Function `temporalDecay` from src/lib/scoring.js.  `now` is taken as an explicit
argument (the JS wall-clock default for a missing `now` is external input). -/
noncomputable def temporalDecay (createdAt : Int) (halfLifeDays : ℚ) (now : Int) : ℝ :=
  let ageSeconds : Int := max 0 (now - createdAt)
  let ageDays : ℝ := (ageSeconds : ℝ) / 86400
  (1 / 2 : ℝ) ^ (ageDays / (halfLifeDays : ℝ))

/-- Function `zapWeight` from src/lib/scoring.js. -/
noncomputable def zapWeight (sats : Int) : ℝ :=
  if sats ≤ 0 then 1
  else 1 + Real.logb 2 (1 + (sats : ℝ)) * ZAP_MULTIPLIER

/-- JS `Math.round`: round half toward positive infinity. -/
noncomputable def jsRound (x : ℝ) : ℤ := ⌊x + 1 / 2⌋

-- ─── The scoring kernel checked into src/lib/scoring.js ──────────

/-- Result of `resolveAttesterScore` as consumed by the kernels (only the
`raw` and `display` fields are read). -/
structure AttesterScore where
  raw : ℝ
  display : Int

/-- Options of `calculateTrustScore` (src/lib/scoring.js); `now` is explicit,
the wall-clock default being external. -/
structure ScoreOpts where
  halfLifeDays : ℚ
  depth : Nat
  maxDepth : Nat
  now : Int

/-- One breakdown record of src/lib/scoring.js.  The source stores rounded
copies of the numeric fields for display; the model keeps the exact values
(the rounding is presentational and the accumulated sum uses the exact
contribution in the source as well). -/
structure BreakdownEntry where
  attester : String
  atype : String
  zapSats : Int
  zapW : ℝ
  decayFactor : ℝ
  attesterTrust : ℝ
  typeMult : ℝ
  contribution : ℝ
  eventId : String
  timestamp : Int

/-- The `l`-tag lookup of src/lib/scoring.js line 86:
`att.tags.find(t => t[0] === 'l' && t[2] === NAMESPACE)`. -/
def lTagOf (e : NEvent) : Option (List String) :=
  e.tags.find? (fun t => tagAt t 0 == "l" && tagAt t 2 == NAMESPACE)

/-- The body of the per-attestation loop of `calculateTrustScore`
(src/lib/scoring.js lines 84-125): `none` means the record was skipped by a
`continue`. -/
noncomputable def scoreOne (opts : ScoreOpts) (resolver : Option (String → AttesterScore))
    (zapTotals : String → Int) (att : NEvent) : Option BreakdownEntry :=
  match lTagOf att with
  | none => none
  | some lTag =>
    let attType := tagAt lTag 1
    if VALID_TYPES.contains attType then
      let typeMult := TYPE_MULTIPLIERS attType
      let sats := zapTotals att.id
      let zWeight := zapWeight sats
      let decayFactor := temporalDecay att.created_at opts.halfLifeDays opts.now
      let attesterTrust : ℝ :=
        match resolver with
        | some f =>
          if opts.depth < opts.maxDepth then
            let s := f att.pubkey
            if s.raw > 0 then s.raw ^ DAMPENING_FACTOR else 1
          else 1
        | none => 1
      let contribution := zWeight * attesterTrust * typeMult * decayFactor
      some { attester := att.pubkey, atype := attType, zapSats := sats,
             zapW := zWeight, decayFactor := decayFactor,
             attesterTrust := attesterTrust, typeMult := typeMult,
             contribution := contribution, eventId := att.id,
             timestamp := att.created_at }
    else none

/-- Result shape of src/lib/scoring.js `calculateTrustScore`. -/
structure ScoreResult where
  raw : ℝ
  display : Int
  attestationCount : Nat
  breakdown : List BreakdownEntry

/-- Function `calculateTrustScore` from src/lib/scoring.js (lines 75-133). -/
noncomputable def calculateTrustScore (attestations : List NEvent)
    (zapTotals : String → Int) (opts : ScoreOpts)
    (resolver : Option (String → AttesterScore)) : ScoreResult :=
  let breakdown := attestations.filterMap (scoreOne opts resolver zapTotals)
  let rawScore := (breakdown.map (fun e => e.contribution)).sum
  { raw := (jsRound (rawScore * 100) : ℝ) / 100,
    display := min 100 (jsRound (rawScore * 10)),
    attestationCount := attestations.length,
    breakdown := breakdown }

-- ─── A computable lexicographic string order ─────────────────────
-- Used for the dedup tie-break on event ids (spec §4.1 step 1).  The
-- library's own String order does not reduce in the kernel, so the code-point
-- lexicographic comparison is spelled out.

def charListLtB : List Char → List Char → Bool
  | [], [] => false
  | [], _ :: _ => true
  | _ :: _, [] => false
  | c :: cs, d :: ds => c.toNat < d.toNat || (c == d && charListLtB cs ds)

def strLtB (a b : String) : Bool := charListLtB a.toList b.toList

def strLeB (a b : String) : Bool := strLtB a b || a == b

theorem char_toNat_inj {c d : Char} (h : c.toNat = d.toNat) : c = d := by
  apply Char.ext
  exact UInt32.ext h

theorem charListLtB_irrefl (xs : List Char) : charListLtB xs xs = false := by
  induction xs with
  | nil => rfl
  | cons c cs ih => simp [charListLtB, ih]

theorem charListLtB_total (xs ys : List Char) :
    charListLtB xs ys = true ∨ xs = ys ∨ charListLtB ys xs = true := by
  induction xs generalizing ys with
  | nil => cases ys with
    | nil => simp [charListLtB]
    | cons d ds => simp [charListLtB]
  | cons c cs ih =>
    cases ys with
    | nil => simp [charListLtB]
    | cons d ds =>
      rcases lt_trichotomy c.toNat d.toNat with h | h | h
      · left; simp [charListLtB, h]
      · have hcd : c = d := char_toNat_inj h
        subst hcd
        rcases ih ds with h2 | h2 | h2
        · left; simp [charListLtB, h2]
        · right; left; rw [h2]
        · right; right; simp [charListLtB, h2]
      · right; right; simp [charListLtB, h]

theorem charListLtB_asymm (xs ys : List Char) (h : charListLtB xs ys = true) :
    charListLtB ys xs = false := by
  induction xs generalizing ys with
  | nil => cases ys with
    | nil => rfl
    | cons d ds => rfl
  | cons c cs ih =>
    cases ys with
    | nil => exact absurd h (by simp [charListLtB])
    | cons d ds =>
      simp only [charListLtB, Bool.or_eq_true, Bool.and_eq_true, beq_iff_eq,
        decide_eq_true_eq] at h ⊢
      simp only [Bool.or_eq_false_iff, Bool.and_eq_false_iff] at *
      rcases h with h | ⟨hcd, h⟩
      · constructor
        · simp only [decide_eq_false_iff_not]; omega
        · left; simp only [beq_eq_false_iff_ne, ne_eq]
          intro hh; subst hh; omega
      · subst hcd
        constructor
        · simp only [decide_eq_false_iff_not]; omega
        · right; exact ih ds h

theorem strLeB_refl (a : String) : strLeB a a = true := by
  simp [strLeB]

theorem strLeB_total (a b : String) : strLeB a b = true ∨ strLeB b a = true := by
  rcases charListLtB_total a.toList b.toList with h | h | h
  · left
    simp only [strLeB, strLtB, Bool.or_eq_true, beq_iff_eq]
    exact Or.inl h
  · left
    have hab : a = b := by
      cases a; cases b
      simp only [String.toList] at h
      simp [h]
    simp [strLeB, hab]
  · right
    simp only [strLeB, strLtB, Bool.or_eq_true, beq_iff_eq]
    exact Or.inl h

theorem strLeB_antisymm {a b : String} (h1 : strLeB a b = true)
    (h2 : strLeB b a = true) : a = b := by
  simp only [strLeB, strLtB, Bool.or_eq_true, beq_iff_eq] at h1 h2
  rcases h1 with h1 | h1
  · rcases h2 with h2 | h2
    · have := charListLtB_asymm _ _ h1
      rw [this] at h2
      exact absurd h2 (by simp)
    · exact h2.symm
  · exact h1

namespace Spec

/-!
The scoring kernel of the released v0.8.0 library.  Modelled from the spec:
the checked-in src/lib/scoring.js is an earlier revision (three attestation
types, no negatives, no deduplication, no novelty bonus), while its callers
under src/ (src/lib/wot.js imports `POSITIVE_TYPES`, `NEGATIVE_TYPES`,
`NEGATIVE_ATTESTATION_TRUST_GATE`) and the v0.8.0 test suite exercise the
full kernel, whose source is not in the repository snapshot.  The
definitions below follow spec §3, §4.1 and the constants asserted by the
test suite.
-/

/-- Modelled from the spec: the closed six-element attestation type set
(spec §3 AttestationType). -/
def VALID_TYPES : List String :=
  ["service-quality", "work-completed", "identity-continuity",
   "general-trust", "warning", "dispute"]

/-- Modelled from the spec: the positive type subset. -/
def POSITIVE_TYPES : List String :=
  ["service-quality", "work-completed", "identity-continuity", "general-trust"]

/-- Modelled from the spec: the negative type subset. -/
def NEGATIVE_TYPES : List String := ["warning", "dispute"]

/-- Modelled from the spec: the per-type multipliers of spec §3 (the default
branch is unreachable: the kernel checks `VALID_TYPES` first). -/
noncomputable def TYPE_MULTIPLIERS (t : String) : ℝ :=
  if t == "service-quality" then 1.5
  else if t == "work-completed" then 1.2
  else if t == "identity-continuity" then 1
  else if t == "general-trust" then 0.8
  else if t == "warning" then -0.8
  else if t == "dispute" then -1.5
  else 0

def NEGATIVE_ATTESTATION_TRUST_GATE : ℚ := 20

/-- Modelled from the spec: the lenient type-tag parser (spec §4.1 step 3).
Strict form first (an `l` tag with the namespace in third position); if
absent and the `L` namespace marker is present, the first `l` tag carrying a
recognised type is accepted. -/
def parseAttType (tags : List (List String)) : Option String :=
  match tags.find? (fun t => tagAt t 0 == "l" && tagAt t 2 == NAMESPACE) with
  | some t => some (tagAt t 1)
  | none =>
    if tags.any (fun t => tagAt t 0 == "L" && tagAt t 1 == NAMESPACE) then
      (tags.find? (fun t => tagAt t 0 == "l" && VALID_TYPES.contains (tagAt t 1))).map
        (fun t => tagAt t 1)
    else none

/-- The target key of an attestation: value of its first `p` tag. -/
def targetTag (e : NEvent) : Option String :=
  (e.tags.find? (fun t => tagAt t 0 == "p")).map (fun t => tagAt t 1)

/-- Modelled from the spec: the dedup group key (author, target, type)
(spec §4.1 step 1). -/
def groupKey (e : NEvent) : String × Option String × Option String :=
  (e.pubkey, targetTag e, parseAttType e.tags)

/-- The dedup preference order: greater `created_at` wins, ties broken by
lexicographically greater id (spec §4.1 step 1). -/
def lexLeB (b a : NEvent) : Bool :=
  b.created_at < a.created_at || (b.created_at == a.created_at && strLeB b.id a.id)

/-- Record `a` survives deduplication: no group member is preferred over it. -/
def keepB (atts : List NEvent) (a : NEvent) : Bool :=
  atts.all (fun b => !(decide (groupKey b = groupKey a)) || lexLeB b a)

/-- Modelled from the spec: `deduplicateAttestations` — keep, per
(author, target, type) group, the record with the greatest `created_at`,
ties broken by lexicographic max of `id` (spec §4.1 step 1). -/
def deduplicateAttestations (atts : List NEvent) : List NEvent :=
  atts.filter (keepB atts)

/-- Modelled from the spec: novelty — a record is novel when its
`created_at` equals the minimum over its (author, target) edge in the
original pre-dedup list (spec §4.1 step 2). -/
def novelB (original : List NEvent) (a : NEvent) : Bool :=
  original.all (fun b =>
    !((b.pubkey == a.pubkey) && decide (targetTag b = targetTag a)) ||
      decide (a.created_at ≤ b.created_at))

/-- One breakdown record of the v0.8.0 kernel (exact values kept; the
source rounds copies for display only). -/
structure SpecEntry where
  attester : String
  atype : String
  zapSats : Int
  zapW : ℝ
  decayFactor : ℝ
  attesterTrust : ℝ
  typeMult : ℝ
  novel : Bool
  gated : Bool
  contribution : ℝ
  eventId : String
  timestamp : Int

/-- Configuration of the v0.8.0 kernel (spec §4.1); `now` is explicit. -/
structure ScoreCfg where
  halfLifeDays : ℚ
  depth : Nat
  maxDepth : Nat
  negativeTrustGate : ℚ
  deduplicate : Bool
  noveltyMultiplier : ℝ
  now : Int

/-- The spec §4.1 defaults (`half_life_days` 90, `depth` 0, `max_depth` 2,
`negative_trust_gate` 20, `deduplicate` true, `novelty_multiplier` 1.3). -/
noncomputable def defaultCfg (now : Int) : ScoreCfg :=
  { halfLifeDays := 90, depth := 0, maxDepth := 2, negativeTrustGate := 20,
    deduplicate := true, noveltyMultiplier := 1.3, now := now }

/-- Modelled from the spec: the per-record contribution (spec §4.1 step 3).
`none` means the record was rejected (no parsable or recognised type);
gated records are kept in the breakdown with contribution 0.  With no
resolver or at the depth budget the attester is assumed trusted
(trust 1.0, display 100). -/
noncomputable def scoreRecord (cfg : ScoreCfg)
    (resolver : Option (String → AttesterScore)) (zapTotals : String → Int)
    (original : List NEvent) (att : NEvent) : Option SpecEntry :=
  match parseAttType att.tags with
  | none => none
  | some attType =>
    if VALID_TYPES.contains attType then
      let typeMult := TYPE_MULTIPLIERS attType
      let isNeg := NEGATIVE_TYPES.contains attType
      let sats := zapTotals att.id
      let zw := zapWeight sats
      let decayFactor := temporalDecay att.created_at cfg.halfLifeDays cfg.now
      let novel := novelB original att
      if isNeg && att.content.trim == "" then
        some { attester := att.pubkey, atype := attType, zapSats := sats,
               zapW := zw, decayFactor := decayFactor, attesterTrust := 1,
               typeMult := typeMult, novel := novel, gated := true,
               contribution := 0, eventId := att.id,
               timestamp := att.created_at }
      else
        let resolved : ℝ × Int :=
          match resolver with
          | some f =>
            if cfg.depth < cfg.maxDepth then
              let s := f att.pubkey
              (if s.raw > 0 then s.raw ^ DAMPENING_FACTOR else 1, s.display)
            else (1, 100)
          | none => (1, 100)
        if isNeg && decide ((resolved.2 : ℚ) < cfg.negativeTrustGate) then
          some { attester := att.pubkey, atype := attType, zapSats := sats,
                 zapW := zw, decayFactor := decayFactor,
                 attesterTrust := resolved.1, typeMult := typeMult,
                 novel := novel, gated := true, contribution := 0,
                 eventId := att.id, timestamp := att.created_at }
        else
          let base := zw * resolved.1 * typeMult * decayFactor
          some { attester := att.pubkey, atype := attType, zapSats := sats,
                 zapW := zw, decayFactor := decayFactor,
                 attesterTrust := resolved.1, typeMult := typeMult,
                 novel := novel, gated := false,
                 contribution := if novel then base * cfg.noveltyMultiplier else base,
                 eventId := att.id, timestamp := att.created_at }
    else none

/-- Result of the v0.8.0 kernel (the diversity block of spec §4.1 step 5 is
not needed by any claim and is omitted). -/
structure SpecScoreResult where
  raw : ℝ
  display : Int
  positiveCount : Nat
  negativeCount : Nat
  gatedCount : Nat
  breakdown : List SpecEntry

/-- Modelled from the spec: `calculateTrustScore` of the v0.8.0 kernel
(spec §4.1 steps 1-4): optional dedup, per-record scoring with novelty
computed over the original list, floor at zero, raw rounded to 1/100,
display = min(100, round(max(0, Σ) × 10)). -/
noncomputable def calculateTrustScore (attestations : List NEvent)
    (zapTotals : String → Int) (cfg : ScoreCfg)
    (resolver : Option (String → AttesterScore)) : SpecScoreResult :=
  let working := if cfg.deduplicate then deduplicateAttestations attestations
                 else attestations
  let breakdown := working.filterMap (scoreRecord cfg resolver zapTotals attestations)
  let total := (breakdown.map (fun e => e.contribution)).sum
  let floored := max 0 total
  { raw := (jsRound (floored * 100) : ℝ) / 100,
    display := min 100 (jsRound (floored * 10)),
    positiveCount := (breakdown.filter (fun e => !e.gated && decide (0 < e.contribution))).length,
    negativeCount := (breakdown.filter (fun e => !e.gated && decide (e.contribution < 0))).length,
    gatedCount := (breakdown.filter (fun e => e.gated)).length,
    breakdown := breakdown }

end Spec

namespace Wot

/-!
src/lib/wot.js (v0.3.0).  The relay network is replaced by explicit event
stores: `fetched` is the merged, id-deduplicated bag returned by the
attestation filter, `delStore` is the store of deletion events the
revocation filter selects from.  The scoring-module constants this file
imports are the spec-modelled six-type sets (`Spec.VALID_TYPES`,
`Spec.NEGATIVE_TYPES`): the checked-in src/lib/scoring.js does not export
the negative sets this code dereferences.
-/

/-- The input-validation prefix of `publishAttestation`
(src/lib/wot.js lines 250-262): `some msg` means the function throws. -/
def validationError (targetPubkey ty comment : String) : Option String :=
  if !(Spec.VALID_TYPES.contains ty) then
    some "Invalid attestation type"
  else if targetPubkey.length ≠ 64 then
    some "targetPubkey must be a 64-character hex string"
  else if Spec.NEGATIVE_TYPES.contains ty && comment.trim == "" then
    some "Negative attestation type requires a non-empty comment"
  else none

/-- Function `publishAttestation` (src/lib/wot.js lines 250-291) up to the external
signing and relay fan-out: validation, then construction of the unsigned
kind-1985 event (id and signature are produced by the external signing
primitive and left empty).  `expiration = none` takes the now + 90 days
default; the `opts.expiration === false` opt-out is not exercised by any
claim and is modelled by the caller simply reading the tags it needs. -/
def publishAttestation (targetPubkey ty comment : String)
    (eventRef : Option String) (relayHint : Option String)
    (expiration : Option Int) (now : Int) : Except String NEvent :=
  match validationError targetPubkey ty comment with
  | some msg => .error msg
  | none =>
    let base := [["L", NAMESPACE], ["l", ty, NAMESPACE], ["p", targetPubkey]]
    let withRef := base ++ (match eventRef with
      | some r => [["e", r, relayHint.getD ""]]
      | none => [])
    let tags := withRef ++
      [["expiration", toString (expiration.getD (now + 90 * 24 * 60 * 60))]]
    .ok { id := "", pubkey := "", kind := 1985, created_at := now,
          content := comment, tags := tags }

/-- Function `queryRevocations` (src/lib/wot.js lines 180-202): the relay filter
selects kind-5 events with a `k` tag "1985" authored by one of `authors`
(the `limit: 500` cap is a relay hint and not modelled); every `e`-tag value
of every matching deletion is collected. -/
def queryRevocations (authors : List String) (delStore : List NEvent) : List String :=
  if authors.isEmpty then []
  else
    (delStore.filter (fun d =>
        d.kind == 5 &&
        d.tags.any (fun t => tagAt t 0 == "k" && tagAt t 1 == "1985") &&
        authors.contains d.pubkey)).flatMap
      (fun d => d.tags.filterMap (fun t =>
        if tagAt t 0 == "e" then t.get? 1 else none))

/-- Function `queryAttestations` (src/lib/wot.js lines 301-339) after the relay
merge: self-attestations are dropped, then—unless `includeRevoked`—any
attestation whose id appears in the revocation set collected from the bag's
authors is removed.  (The `authors.length > 0` and `revokedIds.size > 0`
guards of the source are reproduced; they do not change the result.) -/
def queryAttestations (pubkey : String) (includeRevoked : Bool)
    (fetched : List NEvent) (delStore : List NEvent) : List NEvent :=
  let events := fetched.filter (fun e => !(e.pubkey == pubkey))
  if includeRevoked then events
  else
    let authors := (events.map (fun e => e.pubkey)).dedup
    let revoked := queryRevocations authors delStore
    if revoked.isEmpty then events
    else events.filter (fun e => !(revoked.contains e.id))

end Wot

namespace Receipts

/-!
src/lib/receipts.js (v0.4.0).
-/

def DVM_REQUEST_KIND_MIN : Int := 5000
def DVM_REQUEST_KIND_MAX : Int := 5999
def DVM_RESULT_KIND_MIN : Int := 6000
def DVM_RESULT_KIND_MAX : Int := 6999
def DVM_FEEDBACK_KIND : Int := 7000

/-- The `DVM_KIND_NAMES` table (src/lib/receipts.js lines 23-33). -/
def DVM_KIND_NAMES (k : Int) : Option String :=
  if k == 5050 then some "text-generation"
  else if k == 5100 then some "image-generation"
  else if k == 5200 then some "text-to-speech"
  else if k == 5300 then some "content-discovery"
  else if k == 5301 then some "people-discovery"
  else if k == 5302 then some "content-search"
  else if k == 5400 then some "content-curation"
  else if k == 5500 then some "translation"
  else if k == 5900 then some "custom"
  else none

/-- JS `parseInt(s, 10)` restricted to its defined (non-NaN) results: an
optional sign followed by a longest prefix of decimal digits; `none` models
NaN (the library treats an unparsable amount as absent). -/
def parseIntJS (s : String) : Option Int :=
  match s.toList with
  | [] => none
  | c :: rest =>
    let signed : Int × List Char :=
      if c == '-' then (-1, rest)
      else if c == '+' then (1, rest)
      else (1, c :: rest)
    let digits := signed.2.takeWhile Char.isDigit
    if digits.isEmpty then none
    else some (signed.1 *
      ((digits.foldl (fun acc d => acc * 10 + (d.toNat - 48)) 0 : Nat) : Int))

/-- The JS truthiness guard `amountTag ? parseInt(amountTag, 10) : null`:
an absent or empty amount tag yields `none`. -/
def parseAmount (amountTag : Option String) : Option Int :=
  match amountTag with
  | none => none
  | some s => if s == "" then none else parseIntJS s

/-- Parsed DVM result record (src/lib/receipts.js lines 56-68). -/
structure DVMResult where
  resultEventId : String
  resultKind : Int
  requestKind : Int
  requestKindName : String
  requestEventId : Option String
  dvmPubkey : String
  requesterPubkey : Option String
  content : String
  createdAt : Int
  amountMillisats : Option Int
  amountSats : Option Int
deriving DecidableEq

/-- Function `parseDVMResult` (src/lib/receipts.js lines 43-69).  The input is an
`Option` to model the JS `null`/`undefined` argument; `!event.kind` is the
kind-0 (or missing-kind) guard.  `Math.floor(x / 1000)` is floor division. -/
def parseDVMResult (event : Option NEvent) : Option DVMResult :=
  match event with
  | none => none
  | some e =>
    if e.kind == 0 then none
    else if e.kind < DVM_RESULT_KIND_MIN || e.kind > DVM_RESULT_KIND_MAX then none
    else
      let requestKind := e.kind - 1000
      let amountTag := findTagValue e.tags "amount"
      let msats := parseAmount amountTag
      some { resultEventId := e.id,
             resultKind := e.kind,
             requestKind := requestKind,
             requestKindName := (DVM_KIND_NAMES requestKind).getD
               ("kind-" ++ toString requestKind),
             requestEventId := findTagValue e.tags "e",
             dvmPubkey := e.pubkey,
             requesterPubkey := findTagValue e.tags "p",
             content := e.content,
             createdAt := e.created_at,
             amountMillisats := msats,
             amountSats := msats.map (fun n => Int.fdiv n 1000) }

end Receipts

-- ─── Shared lemmas ───────────────────────────────────────────────

theorem jsRound_nonneg {x : ℝ} (hx : 0 ≤ x) : 0 ≤ jsRound x := by
  unfold jsRound
  apply Int.le_floor.mpr
  push_cast
  linarith

-- ─── Claim C8 ────────────────────────────────────────────────────

/-- Claim C8: for every created_at, half_life_days > 0 and now, the temporal
decay factor equals 0.5^(max(0, now − created_at)/86400/half_life_days); a
future-dated attestation gets decay exactly 1.0, and an attestation aged
exactly half_life_days days gets decay 0.5. -/
theorem claim8_temporal_decay (createdAt : Int) (halfLifeDays : ℚ) (now : Int)
    (hpos : 0 < halfLifeDays) :
    temporalDecay createdAt halfLifeDays now
      = (1 / 2 : ℝ) ^ (max 0 ((now : ℝ) - (createdAt : ℝ)) / 86400 / (halfLifeDays : ℝ))
    ∧ (now < createdAt → temporalDecay createdAt halfLifeDays now = 1)
    ∧ (((now - createdAt : ℤ) : ℝ) = (halfLifeDays : ℝ) * 86400 →
        temporalDecay createdAt halfLifeDays now = 1 / 2) := by
  have hcast : ((max 0 (now - createdAt) : ℤ) : ℝ) = max 0 ((now : ℝ) - (createdAt : ℝ)) := by
    push_cast [Int.cast_max]
    norm_num
  refine ⟨?_, ?_, ?_⟩
  · show (1 / 2 : ℝ) ^ (((max 0 (now - createdAt) : ℤ) : ℝ) / 86400 / (halfLifeDays : ℝ))
        = (1 / 2 : ℝ) ^ (max 0 ((now : ℝ) - (createdAt : ℝ)) / 86400 / (halfLifeDays : ℝ))
    rw [hcast]
  · intro hfut
    unfold temporalDecay
    have h0 : max 0 (now - createdAt) = 0 := by omega
    rw [h0]
    norm_num
  · intro hage
    have hq : (0 : ℝ) < (halfLifeDays : ℝ) := by exact_mod_cast hpos
    have hnn : (0 : ℝ) ≤ ((now - createdAt : ℤ) : ℝ) := by
      rw [hage]; positivity
    have hmax : max 0 (now - createdAt) = now - createdAt := by
      have : (0 : ℤ) ≤ now - createdAt := by exact_mod_cast hnn
      omega
    have hexp : ((now - createdAt : ℤ) : ℝ) / 86400 / (halfLifeDays : ℝ) = 1 := by
      rw [hage]
      field_simp
    show (1 / 2 : ℝ) ^ (((max 0 (now - createdAt) : ℤ) : ℝ) / 86400 / (halfLifeDays : ℝ))
        = 1 / 2
    rw [hmax, hexp, Real.rpow_one]

/-- Witness for claim C8 at half-life 90 days. -/
theorem claim8_temporal_decay_witness :
    temporalDecay 100 90 0 = 1 ∧ temporalDecay 0 90 7776000 = 1 / 2 := by
  constructor
  · exact (claim8_temporal_decay 100 90 0 (by norm_num)).2.1 (by norm_num)
  · exact (claim8_temporal_decay 0 90 7776000 (by norm_num)).2.2 (by norm_num)

-- ─── Claim C9 ────────────────────────────────────────────────────

/-- The kind-6050 receipt event of spec §8 scenario 10. -/
def ex9 : NEvent :=
  { id := "RES", pubkey := "P", kind := 6050, created_at := 1000,
    content := "done",
    tags := [["e", "R"], ["p", "U"], ["amount", "21000"]] }

/-- Claim C9: parse_service_result returns a structured record exactly for
events whose kind lies in [6000, 6999] and none otherwise (including null);
on acceptance request_kind = kind − 1000, provider_key is the author,
request_event_id the first e-tag, requester_key the first p-tag, and an
amount tag "21000" on a kind-6050 event yields amount_sats = 21. -/
theorem claim9_parse_service_result :
    (∀ e : Option NEvent, (Receipts.parseDVMResult e).isSome = true ↔
        ∃ ev, e = some ev ∧ 6000 ≤ ev.kind ∧ ev.kind ≤ 6999)
    ∧ (∀ ev r, Receipts.parseDVMResult (some ev) = some r →
        r.requestKind = ev.kind - 1000 ∧ r.dvmPubkey = ev.pubkey ∧
        r.requestEventId = findTagValue ev.tags "e" ∧
        r.requesterPubkey = findTagValue ev.tags "p")
    ∧ ((Receipts.parseDVMResult (some ex9)).map
          (fun r => (r.requestKind, r.dvmPubkey, r.requestEventId,
                     r.requesterPubkey, r.amountSats))
        = some (5050, "P", some "R", some "U", some 21)) := by
  refine ⟨?_, ?_, by decide⟩
  · intro e
    cases e with
    | none => simp [Receipts.parseDVMResult]
    | some ev =>
      unfold Receipts.parseDVMResult
      constructor
      · intro h
        refine ⟨ev, rfl, ?_, ?_⟩ <;>
        · by_contra hk
          simp only [Receipts.DVM_RESULT_KIND_MIN, Receipts.DVM_RESULT_KIND_MAX] at h
          split at h
          · simp at h
          · split at h
            · simp at h
            · rename_i hz hrange
              simp only [Bool.or_eq_true, decide_eq_true_eq, not_or, not_lt] at hrange
              omega
      · rintro ⟨ev2, hev, hlo, hhi⟩
        cases hev
        have hz : (ev.kind == 0) = false := by
          simp only [beq_eq_false_iff_ne, ne_eq]
          omega
        have hrange : (decide (ev.kind < Receipts.DVM_RESULT_KIND_MIN) ||
            decide (ev.kind > Receipts.DVM_RESULT_KIND_MAX)) = false := by
          simp only [Receipts.DVM_RESULT_KIND_MIN, Receipts.DVM_RESULT_KIND_MAX,
            Bool.or_eq_false_iff, decide_eq_false_iff_not, not_lt]
          omega
        simp [hz, hrange]
  · intro ev r h
    simp only [Receipts.parseDVMResult] at h
    split at h
    · exact absurd h (by simp)
    · split at h
      · exact absurd h (by simp)
      · rw [Option.some_inj] at h
        subst h
        exact ⟨rfl, rfl, rfl, rfl⟩

/-- Witness for claim C9 on the concrete kind-6050 receipt event. -/
theorem claim9_parse_service_result_witness :
    (Receipts.parseDVMResult (some ex9)).isSome = true ∧
    (∀ r, Receipts.parseDVMResult (some ex9) = some r →
      r.requestKind = ex9.kind - 1000 ∧ r.dvmPubkey = ex9.pubkey ∧
      r.requestEventId = findTagValue ex9.tags "e" ∧
      r.requesterPubkey = findTagValue ex9.tags "p") := by
  constructor
  · exact (claim9_parse_service_result.1 (some ex9)).mpr
      ⟨ex9, rfl, by decide, by decide⟩
  · intro r h
    exact claim9_parse_service_result.2.1 ex9 r h

-- ─── Claim C7 ────────────────────────────────────────────────────

/-- Claim C7: for every attestation list, non-negative zap totals, every
configuration and every resolver whose results have raw ≥ 0, the spec kernel
returns raw ≥ 0 and display an integer in 0..100.  (Modelled from the spec:
v0.8.0 kernel, spec §4.1 step 4 and §8.) -/
theorem claim7_kernel_bounds (atts : List NEvent) (zaps : String → Int)
    (cfg : Spec.ScoreCfg) (res : Option (String → AttesterScore))
    (hz : ∀ i, 0 ≤ zaps i)
    (hres : ∀ f p, res = some f → 0 ≤ (f p).raw) :
    0 ≤ (Spec.calculateTrustScore atts zaps cfg res).raw ∧
    0 ≤ (Spec.calculateTrustScore atts zaps cfg res).display ∧
    (Spec.calculateTrustScore atts zaps cfg res).display ≤ 100 := by
  unfold Spec.calculateTrustScore
  set total := ((if cfg.deduplicate then Spec.deduplicateAttestations atts
      else atts).filterMap (Spec.scoreRecord cfg res zaps atts)).map
      (fun e => e.contribution) |>.sum with htotal
  have hfl : (0 : ℝ) ≤ max 0 total := le_max_left 0 total
  refine ⟨?_, ?_, ?_⟩
  · apply div_nonneg _ (by norm_num)
    have := jsRound_nonneg (x := max 0 total * 100) (by positivity)
    exact_mod_cast this
  · simp only
    apply le_min (by norm_num)
    exact jsRound_nonneg (by positivity)
  · simp only
    exact min_le_left _ _

/-- Witness for claim C7 on the empty input with the default configuration. -/
theorem claim7_kernel_bounds_witness :
    0 ≤ (Spec.calculateTrustScore [] (fun _ => 0) (Spec.defaultCfg 0) none).raw ∧
    0 ≤ (Spec.calculateTrustScore [] (fun _ => 0) (Spec.defaultCfg 0) none).display ∧
    (Spec.calculateTrustScore [] (fun _ => 0) (Spec.defaultCfg 0) none).display ≤ 100 :=
  claim7_kernel_bounds [] (fun _ => 0) (Spec.defaultCfg 0) none
    (fun _ => le_refl 0) (fun f _ h => by simp at h)

-- ─── Claim C10 ───────────────────────────────────────────────────

/-- Claim C10: the checked-in kernel's attestation_count equals the total
input length, counting records skipped for a missing or unrecognised type
tag, which contribute nothing to raw and never appear in the breakdown
(src/lib/scoring.js lines 84-132). -/
theorem claim10_attestation_count :
    (∀ (atts : List NEvent) zaps opts res,
        (calculateTrustScore atts zaps opts res).attestationCount = atts.length)
    ∧ (∀ (l1 l2 : List NEvent) a zaps opts res,
        scoreOne opts res zaps a = none →
        (calculateTrustScore (l1 ++ a :: l2) zaps opts res).breakdown
          = (calculateTrustScore (l1 ++ l2) zaps opts res).breakdown
        ∧ (calculateTrustScore (l1 ++ a :: l2) zaps opts res).raw
          = (calculateTrustScore (l1 ++ l2) zaps opts res).raw
        ∧ (calculateTrustScore (l1 ++ a :: l2) zaps opts res).attestationCount
          = (calculateTrustScore (l1 ++ l2) zaps opts res).attestationCount + 1)
    ∧ (∀ a zaps opts res, lTagOf a = none → scoreOne opts res zaps a = none)
    ∧ (∀ a zaps opts res lt, lTagOf a = some lt →
        VALID_TYPES.contains (tagAt lt 1) = false → scoreOne opts res zaps a = none) := by
  refine ⟨?_, ?_, ?_, ?_⟩
  · intro atts zaps opts res
    rfl
  · intro l1 l2 a zaps opts res hskip
    have hbd : (l1 ++ a :: l2).filterMap (scoreOne opts res zaps)
        = (l1 ++ l2).filterMap (scoreOne opts res zaps) := by
      rw [List.filterMap_append, List.filterMap_append, List.filterMap_cons, hskip]
    refine ⟨?_, ?_, ?_⟩
    · simp only [calculateTrustScore, hbd]
    · simp only [calculateTrustScore, hbd]
    · simp only [calculateTrustScore, List.length_append, List.length_cons]
      omega
  · intro a zaps opts res h
    unfold scoreOne
    rw [h]
  · intro a zaps opts res lt h hvalid
    unfold scoreOne
    rw [h]
    have hmem : tagAt lt 1 ∉ VALID_TYPES := by simpa using hvalid
    simp [hmem]

/-- A kind-1985 event with no type tag at all. -/
def noTypeAtt : NEvent :=
  { id := "bad", pubkey := "A", kind := 1985, created_at := 0,
    content := "x", tags := [["p", "T"]] }

/-- Witness for claim C10: one type-less attestation is counted but
produces no breakdown entry and leaves raw at the empty-input value. -/
theorem claim10_attestation_count_witness :
    (calculateTrustScore [noTypeAtt] (fun _ => 0) ⟨90, 0, 2, 0⟩ none).attestationCount = 1 ∧
    (calculateTrustScore [noTypeAtt] (fun _ => 0) ⟨90, 0, 2, 0⟩ none).breakdown = [] := by
  have hskip : scoreOne ⟨90, 0, 2, 0⟩ none (fun _ => 0) noTypeAtt = none :=
    claim10_attestation_count.2.2.1 noTypeAtt (fun _ => 0) ⟨90, 0, 2, 0⟩ none rfl
  constructor
  · exact claim10_attestation_count.1 [noTypeAtt] (fun _ => 0) ⟨90, 0, 2, 0⟩ none
  · have h := (claim10_attestation_count.2.1 [] [] noTypeAtt (fun _ => 0)
      ⟨90, 0, 2, 0⟩ none hskip).1
    simpa using h

-- ─── Claim C4 ────────────────────────────────────────────────────

/-- The claim's notion of a canonical 64-character lowercase-hex key
(spec §3 Key). -/
def isHex64 (s : String) : Bool :=
  s.length == 64 &&
  s.toList.all (fun ch => ch.isDigit || ("abcdef".toList.contains ch))

/-- A 64-character target key that is not a hex string. -/
def zkey : String := "zzzzzzzzzzzzzzzzzzzzzzzzzzzzzzzzzzzzzzzzzzzzzzzzzzzzzzzzzzzzzzzz"

theorem validationError_none_iff (t ty c : String) :
    Wot.validationError t ty c = none ↔
      (Spec.VALID_TYPES.contains ty = true ∧ t.length = 64 ∧
        ¬(Spec.NEGATIVE_TYPES.contains ty = true ∧ c.trim = "")) := by
  unfold Wot.validationError
  split_ifs with h1 h2 h3
  · simp only [Bool.not_eq_true'] at h1
    have h1m : ty ∉ Spec.VALID_TYPES := by simpa using h1
    simp [h1m]
  · simp [h2]
  · simp only [Bool.and_eq_true, beq_iff_eq] at h3
    have h3m : ty ∈ Spec.NEGATIVE_TYPES := by simpa using h3.1
    simp [h3m, h3.2]
  · simp only [Bool.not_eq_true', Bool.not_eq_false] at h1
    have h1m : ty ∈ Spec.VALID_TYPES := by simpa using h1
    simp only [ne_eq, Decidable.not_not] at h2
    simp only [Bool.and_eq_true, beq_iff_eq, not_and] at h3
    constructor
    · intro _
      refine ⟨by simpa using h1m, h2, ?_⟩
      rintro ⟨hneg, htrim⟩
      exact h3 hneg htrim
    · intro _
      rfl

/-- Claim C4, counterexample: a 64-character non-hex target key passes
publishAttestation's validation, so the claim's "not a 64-character hex
string raises an error" fails (the source checks only the length,
src/lib/wot.js line 255). -/
theorem claim4_counterexample :
    isHex64 zkey = false ∧
    (Wot.publishAttestation zkey "service-quality" "ok" none none none 0).isOk = true := by
  constructor
  · decide
  · rfl

/-- Claim C4 (amended): publishAttestation raises an input-validation error
exactly when the type is not a recognised attestation type, the target key's
length is not 64 characters, or a negative-type attestation has blank
comment; otherwise it raises no error and builds the kind-1985 attestation
event for signing and publishing (src/lib/wot.js lines 250-291; the type
sets are the spec-modelled six-type scoring constants). -/
theorem claim4_publish_validation (t ty c : String) (er rh : Option String)
    (exp : Option Int) (now : Int) :
    ((∃ m, Wot.publishAttestation t ty c er rh exp now = .error m) ↔
      (Spec.VALID_TYPES.contains ty = false ∨ t.length ≠ 64 ∨
        (Spec.NEGATIVE_TYPES.contains ty = true ∧ c.trim = "")))
    ∧ (Spec.VALID_TYPES.contains ty = true → t.length = 64 →
        (Spec.NEGATIVE_TYPES.contains ty = true → c.trim ≠ "") →
        ∃ ev, Wot.publishAttestation t ty c er rh exp now = .ok ev ∧
          ev.kind = 1985 ∧ ev.content = c ∧
          ["l", ty, NAMESPACE] ∈ ev.tags ∧ ["p", t] ∈ ev.tags) := by
  have hp : ∀ m, Wot.publishAttestation t ty c er rh exp now = .error m ↔
      Wot.validationError t ty c = some m := by
    intro m
    unfold Wot.publishAttestation
    cases hv : Wot.validationError t ty c <;> simp
  have hex : (∃ m, Wot.publishAttestation t ty c er rh exp now = .error m) ↔
      Wot.validationError t ty c ≠ none := by
    constructor
    · rintro ⟨m, hm⟩
      have h2 := (hp m).mp hm
      rw [h2]
      simp
    · intro hne
      cases hv : Wot.validationError t ty c with
      | none => exact absurd hv hne
      | some msg => exact ⟨msg, (hp msg).mpr hv⟩
  constructor
  · rw [hex, Ne, validationError_none_iff]
    constructor
    · intro h
      by_cases hA : Spec.VALID_TYPES.contains ty = true
      · by_cases hB : t.length = 64
        · right; right
          by_contra hC
          exact h ⟨hA, hB, hC⟩
        · right; left; exact hB
      · left
        revert hA
        cases Spec.VALID_TYPES.contains ty <;> simp
    · intro h hcon
      rcases hcon with ⟨hA, hB, hC⟩
      rcases h with h | h | h
      · rw [hA] at h; exact absurd h (by simp)
      · exact h hB
      · exact hC h
  · intro hA hB hC
    have hnone : Wot.validationError t ty c = none :=
      (validationError_none_iff t ty c).mpr ⟨hA, hB, fun hh => hC hh.1 hh.2⟩
    unfold Wot.publishAttestation
    rw [hnone]
    refine ⟨_, rfl, rfl, rfl, ?_, ?_⟩ <;> simp

/-- Witness for the amended claim C4: a well-formed positive attestation
passes validation and yields the kind-1985 event. -/
theorem claim4_publish_validation_witness :
    ∃ ev, Wot.publishAttestation
        "aaaaaaaaaaaaaaaaaaaaaaaaaaaaaaaaaaaaaaaaaaaaaaaaaaaaaaaaaaaaaaaa"
        "service-quality" "ok" none none none 0 = .ok ev ∧
      ev.kind = 1985 ∧ ev.content = "ok" ∧
      ["l", "service-quality", NAMESPACE] ∈ ev.tags ∧
      ["p", "aaaaaaaaaaaaaaaaaaaaaaaaaaaaaaaaaaaaaaaaaaaaaaaaaaaaaaaaaaaaaaaa"] ∈ ev.tags :=
  (claim4_publish_validation
      "aaaaaaaaaaaaaaaaaaaaaaaaaaaaaaaaaaaaaaaaaaaaaaaaaaaaaaaaaaaaaaaa"
      "service-quality" "ok" none none none 0).2
    (by decide) (by decide) (fun h => absurd h (by decide))

-- ─── Claim C2 ────────────────────────────────────────────────────

theorem mem_queryRevocations (authors : List String) (delStore : List NEvent)
    (x : String) :
    x ∈ Wot.queryRevocations authors delStore ↔
      ∃ d, d ∈ delStore ∧ d.kind = 5 ∧
        (∃ t, t ∈ d.tags ∧ tagAt t 0 = "k" ∧ tagAt t 1 = "1985") ∧
        d.pubkey ∈ authors ∧
        (∃ t, t ∈ d.tags ∧ tagAt t 0 = "e" ∧ t.get? 1 = some x) := by
  unfold Wot.queryRevocations
  split_ifs with hemp
  · rw [List.isEmpty_iff] at hemp
    subst hemp
    simp
  · rw [List.mem_flatMap]
    constructor
    · rintro ⟨d, hdmem, hx⟩
      rw [List.mem_filter] at hdmem
      obtain ⟨hd, hcond⟩ := hdmem
      rw [List.mem_filterMap] at hx
      obtain ⟨t, ht, hval⟩ := hx
      simp only [Bool.and_eq_true, beq_iff_eq] at hcond
      obtain ⟨⟨hk5, hany⟩, hauth⟩ := hcond
      rw [List.any_eq_true] at hany
      obtain ⟨tk, htk, htkcond⟩ := hany
      simp only [Bool.and_eq_true, beq_iff_eq] at htkcond
      by_cases he : tagAt t 0 = "e"
      · rw [if_pos (by simpa using he)] at hval
        exact ⟨d, hd, hk5, ⟨tk, htk, htkcond.1, htkcond.2⟩,
          List.elem_iff.mp hauth, ⟨t, ht, he, hval⟩⟩
      · rw [if_neg (by simpa using he)] at hval
        exact absurd hval (by simp)
    · rintro ⟨d, hd, hk5, ⟨tk, htk, htk0, htk1⟩, hauth, t, ht, ht0, htval⟩
      refine ⟨d, ?_, ?_⟩
      · rw [List.mem_filter]
        refine ⟨hd, ?_⟩
        simp only [Bool.and_eq_true, beq_iff_eq]
        refine ⟨⟨hk5, ?_⟩, List.elem_iff.mpr hauth⟩
        rw [List.any_eq_true]
        exact ⟨tk, htk, by simp [htk0, htk1]⟩
      · rw [List.mem_filterMap]
        exact ⟨t, ht, by rw [if_pos (by simpa using ht0)]; exact htval⟩

/-- Claim C2 (amended): with include_revoked false, an attestation A is
removed from the bag exactly when some kind-5 deletion event carrying a
k-tag "1985", authored by ANY author present in the (self-filtered) bag,
names A's id in an e-tag — the deletion's author is never compared with A's
own author, so a deletion by a different attester in the bag also removes A;
deletions by keys absent from the bag have no effect
(src/lib/wot.js lines 180-202 and 301-339). -/
theorem claim2_revocation_filter (target : String) (fetched delStore : List NEvent)
    (A : NEvent) :
    A ∈ Wot.queryAttestations target false fetched delStore ↔
      (A ∈ fetched ∧ A.pubkey ≠ target ∧
        ¬∃ d, d ∈ delStore ∧ d.kind = 5 ∧
          (∃ t, t ∈ d.tags ∧ tagAt t 0 = "k" ∧ tagAt t 1 = "1985") ∧
          (∃ w, w ∈ fetched ∧ w.pubkey ≠ target ∧ d.pubkey = w.pubkey) ∧
          (∃ t, t ∈ d.tags ∧ tagAt t 0 = "e" ∧ t.get? 1 = some A.id)) := by
  set events := fetched.filter (fun e => !(e.pubkey == target)) with hev
  have hmemev : ∀ e : NEvent, e ∈ events ↔ e ∈ fetched ∧ e.pubkey ≠ target := by
    intro e
    rw [hev, List.mem_filter]
    simp
  set authors := (events.map (fun e => e.pubkey)).dedup with hau
  have hauth_iff : ∀ p, p ∈ authors ↔
      ∃ w, w ∈ fetched ∧ w.pubkey ≠ target ∧ p = w.pubkey := by
    intro p
    rw [hau, List.mem_dedup, List.mem_map]
    constructor
    · rintro ⟨w, hw, hp⟩
      obtain ⟨hwf, hwp⟩ := (hmemev w).mp hw
      exact ⟨w, hwf, hwp, hp.symm⟩
    · rintro ⟨w, hwf, hwp, hp⟩
      exact ⟨w, (hmemev w).mpr ⟨hwf, hwp⟩, hp.symm⟩
  have hrev_iff : ∀ x, x ∈ Wot.queryRevocations authors delStore ↔
      ∃ d, d ∈ delStore ∧ d.kind = 5 ∧
        (∃ t, t ∈ d.tags ∧ tagAt t 0 = "k" ∧ tagAt t 1 = "1985") ∧
        (∃ w, w ∈ fetched ∧ w.pubkey ≠ target ∧ d.pubkey = w.pubkey) ∧
        (∃ t, t ∈ d.tags ∧ tagAt t 0 = "e" ∧ t.get? 1 = some x) := by
    intro x
    rw [mem_queryRevocations]
    apply exists_congr
    intro d
    rw [hauth_iff d.pubkey]
  have hq : Wot.queryAttestations target false fetched delStore
      = (if (Wot.queryRevocations authors delStore).isEmpty then events
         else events.filter
           (fun e => !((Wot.queryRevocations authors delStore).contains e.id))) := rfl
  rw [hq]
  by_cases hre : (Wot.queryRevocations authors delStore).isEmpty
  · rw [if_pos hre]
    rw [List.isEmpty_iff] at hre
    rw [hmemev A]
    constructor
    · rintro ⟨hf, hp⟩
      refine ⟨hf, hp, ?_⟩
      intro hEx
      have hmem : A.id ∈ Wot.queryRevocations authors delStore :=
        (hrev_iff A.id).mpr hEx
      rw [hre] at hmem
      exact absurd hmem (List.not_mem_nil _)
    · rintro ⟨hf, hp, _⟩
      exact ⟨hf, hp⟩
  · rw [if_neg hre]
    rw [List.mem_filter, hmemev A]
    constructor
    · rintro ⟨⟨hf, hp⟩, hc⟩
      refine ⟨hf, hp, ?_⟩
      intro hEx
      have hmem : A.id ∈ Wot.queryRevocations authors delStore :=
        (hrev_iff A.id).mpr hEx
      have hcf : (Wot.queryRevocations authors delStore).contains A.id = false := by
        simpa using hc
      have hct : (Wot.queryRevocations authors delStore).contains A.id = true :=
        List.elem_iff.mpr hmem
      rw [hct] at hcf
      exact absurd hcf (by simp)
    · rintro ⟨hf, hp, hnEx⟩
      refine ⟨⟨hf, hp⟩, ?_⟩
      simp only [Bool.not_eq_true']
      by_contra hcc
      rw [Bool.not_eq_false] at hcc
      exact hnEx ((hrev_iff A.id).mp (List.elem_iff.mp hcc))

/-- Attestation about target T by author X. -/
def attX : NEvent :=
  { id := "a1", pubkey := "X", kind := 1985, created_at := 1, content := "ok",
    tags := [["L", "ai.wot"], ["l", "service-quality", "ai.wot"], ["p", "T"]] }

/-- Attestation about target T by author Y. -/
def attY : NEvent :=
  { id := "a2", pubkey := "Y", kind := 1985, created_at := 1, content := "ok",
    tags := [["L", "ai.wot"], ["l", "service-quality", "ai.wot"], ["p", "T"]] }

/-- Deletion event by X naming Y's attestation a2. -/
def delX : NEvent :=
  { id := "d1", pubkey := "X", kind := 5, created_at := 2, content := "mistake",
    tags := [["e", "a2"], ["k", "1985"]] }

/-- Claim C2, counterexample: a kind-5 deletion authored by attester X (who
is present in the bag) removes attestation a2 authored by the different key
Y, although the claim says a2 stays in the result. -/
theorem claim2_counterexample :
    Wot.queryAttestations "T" false [attX, attY] [delX] = [attX] ∧
    attY ∉ Wot.queryAttestations "T" false [attX, attY] [delX] ∧
    delX.pubkey = "X" ∧ attY.pubkey = "Y" ∧ ("X" : String) ≠ "Y" := by
  refine ⟨by decide, ?_, rfl, rfl, by decide⟩
  decide

-- ─── Claim C1 ────────────────────────────────────────────────────

theorem typeMult_values (T : String) :
    (T = "service-quality" → Spec.TYPE_MULTIPLIERS T = 1.5)
    ∧ (T = "work-completed" → Spec.TYPE_MULTIPLIERS T = 1.2)
    ∧ (T = "identity-continuity" → Spec.TYPE_MULTIPLIERS T = 1)
    ∧ (T = "general-trust" → Spec.TYPE_MULTIPLIERS T = 0.8)
    ∧ (T = "warning" → Spec.TYPE_MULTIPLIERS T = -0.8)
    ∧ (T = "dispute" → Spec.TYPE_MULTIPLIERS T = -1.5) := by
  refine ⟨?_, ?_, ?_, ?_, ?_, ?_⟩ <;> rintro rfl <;> unfold Spec.TYPE_MULTIPLIERS
  · rw [if_pos (by decide)]
  · rw [if_neg (by decide), if_pos (by decide)]
  · rw [if_neg (by decide), if_neg (by decide), if_pos (by decide)]
  · rw [if_neg (by decide), if_neg (by decide), if_neg (by decide),
      if_pos (by decide)]
  · rw [if_neg (by decide), if_neg (by decide), if_neg (by decide),
      if_neg (by decide), if_pos (by decide)]
  · rw [if_neg (by decide), if_neg (by decide), if_neg (by decide),
      if_neg (by decide), if_neg (by decide), if_pos (by decide)]

/-- Claim C1: the scoring kernel recognises exactly the six attestation
types service-quality (+1.5), work-completed (+1.2), identity-continuity
(+1.0), general-trust (+0.8), warning (−0.8) and dispute (−1.5); every
attestation with a recognised parsed type is scored with the stated
multiplier, and every other parsed type value is rejected from scoring.
(Modelled from the spec: the v0.8.0 kernel, spec §3 and §4.1.) -/
theorem claim1_type_multipliers (cfg : Spec.ScoreCfg)
    (res : Option (String → AttesterScore)) (zaps : String → Int)
    (orig : List NEvent) (att : NEvent) (T : String)
    (hp : Spec.parseAttType att.tags = some T) :
    ((Spec.VALID_TYPES.contains T = true) ↔
      ∃ e, Spec.scoreRecord cfg res zaps orig att = some e)
    ∧ (∀ e, Spec.scoreRecord cfg res zaps orig att = some e →
        e.typeMult = Spec.TYPE_MULTIPLIERS T
        ∧ (T = "service-quality" → e.typeMult = 1.5)
        ∧ (T = "work-completed" → e.typeMult = 1.2)
        ∧ (T = "identity-continuity" → e.typeMult = 1)
        ∧ (T = "general-trust" → e.typeMult = 0.8)
        ∧ (T = "warning" → e.typeMult = -0.8)
        ∧ (T = "dispute" → e.typeMult = -1.5)
        ∧ (e.gated = false →
            e.contribution = (if e.novel = true
              then e.zapW * e.attesterTrust * e.typeMult * e.decayFactor * cfg.noveltyMultiplier
              else e.zapW * e.attesterTrust * e.typeMult * e.decayFactor))) := by
  simp only [Spec.scoreRecord, hp]
  by_cases hv : Spec.VALID_TYPES.contains T = true
  · rw [if_pos hv]
    constructor
    · constructor
      · intro _
        split_ifs <;> exact ⟨_, rfl⟩
      · intro _
        exact hv
    · intro e he
      split_ifs at he <;> rw [Option.some_inj] at he <;> subst he <;>
        refine ⟨rfl, fun h => (typeMult_values T).1 h,
          fun h => (typeMult_values T).2.1 h,
          fun h => (typeMult_values T).2.2.1 h,
          fun h => (typeMult_values T).2.2.2.1 h,
          fun h => (typeMult_values T).2.2.2.2.1 h,
          fun h => (typeMult_values T).2.2.2.2.2 h,
          fun hgf => ?_⟩ <;>
        split <;> simp_all
  · rw [if_neg hv]
    constructor
    · constructor
      · intro hvv
        exact absurd hvv hv
      · rintro ⟨e, he⟩
        exact absurd he (by simp)
    · intro e he
      exact absurd he (by simp)

/-- A well-formed service-quality attestation used by witnesses. -/
def att1w : NEvent :=
  { id := "w1", pubkey := "A", kind := 1985, created_at := 0, content := "ok",
    tags := [["L", "ai.wot"], ["l", "service-quality", "ai.wot"], ["p", "B"]] }

/-- Witness for claim C1: a parsed service-quality attestation is accepted
by the kernel. -/
theorem claim1_type_multipliers_witness :
    ∃ e, Spec.scoreRecord (Spec.defaultCfg 0) none (fun _ => 0) [att1w] att1w = some e :=
  (claim1_type_multipliers (Spec.defaultCfg 0) none (fun _ => 0) [att1w] att1w
      "service-quality" rfl).1.mp (by decide)

-- ─── Claim C3 ────────────────────────────────────────────────────

theorem temporalDecay_fresh (c : Int) (h : ℚ) : temporalDecay c h c = 1 := by
  unfold temporalDecay
  have h0 : max 0 (c - c) = 0 := by omega
  rw [h0]
  norm_num

/-- The single fresh service-quality attestation of spec §8 scenario 1. -/
def attC3 : NEvent :=
  { id := "e1", pubkey := "A", kind := 1985, created_at := 1738368000,
    content := "ok",
    tags := [["L", "ai.wot"], ["l", "service-quality", "ai.wot"], ["p", "B"]] }

/-- The breakdown entry the kernel produces for `attC3`. -/
noncomputable def entC3 : Spec.SpecEntry :=
  { attester := "A", atype := "service-quality", zapSats := 0, zapW := 1,
    decayFactor := 1, attesterTrust := 1, typeMult := 1.5, novel := true,
    gated := false, contribution := 1.5 * 1.3, eventId := "e1",
    timestamp := 1738368000 }

theorem scoreRecord_attC3 :
    Spec.scoreRecord (Spec.defaultCfg 1738368000) none (fun _ => 0) [attC3] attC3
      = some entC3 := by
  have hparse : Spec.parseAttType attC3.tags = some "service-quality" := by decide
  have hcont : Spec.VALID_TYPES.contains "service-quality" = true := by decide
  have hnegc : Spec.NEGATIVE_TYPES.contains "service-quality" = false := by decide
  have hnov : Spec.novelB [attC3] attC3 = true := by decide
  have hzw : zapWeight 0 = 1 := by simp [zapWeight]
  have hmult : Spec.TYPE_MULTIPLIERS "service-quality" = 1.5 :=
    (typeMult_values "service-quality").1 rfl
  simp only [Spec.scoreRecord, hparse, hcont, hnegc, hnov, Spec.defaultCfg, hzw,
    hmult, temporalDecay_fresh, entC3, Bool.false_and, Bool.and_self,
    if_true, if_false, Bool.false_eq_true, one_mul, mul_one]
  simp [temporalDecay_fresh, show attC3.created_at = 1738368000 from rfl,
    show attC3.pubkey = "A" from rfl, show attC3.id = "e1" from rfl]

/-- Claim C3: scoring the single fresh service-quality attestation (author
A, target B, created_at = now, non-empty content, no zaps) with the default
configuration yields raw = 1.95 (1.5 type multiplier × 1.3 novelty bonus),
display = 20, positive_count = 1, negative_count = 0, gated_count = 0.
(Modelled from the spec: v0.8.0 kernel, spec §8 scenario 1.) -/
theorem claim3_single_fresh_scenario :
    (Spec.calculateTrustScore [attC3] (fun _ => 0) (Spec.defaultCfg 1738368000) none).raw = 1.95
    ∧ (Spec.calculateTrustScore [attC3] (fun _ => 0) (Spec.defaultCfg 1738368000) none).display = 20
    ∧ (Spec.calculateTrustScore [attC3] (fun _ => 0) (Spec.defaultCfg 1738368000) none).positiveCount = 1
    ∧ (Spec.calculateTrustScore [attC3] (fun _ => 0) (Spec.defaultCfg 1738368000) none).negativeCount = 0
    ∧ (Spec.calculateTrustScore [attC3] (fun _ => 0) (Spec.defaultCfg 1738368000) none).gatedCount = 0 := by
  have hded : Spec.deduplicateAttestations [attC3] = [attC3] := by decide
  have hdd : (Spec.defaultCfg 1738368000).deduplicate = true := rfl
  have hbd : ([attC3].filterMap
      (Spec.scoreRecord (Spec.defaultCfg 1738368000) none (fun _ => 0) [attC3]))
      = [entC3] := by
    rw [List.filterMap_cons, scoreRecord_attC3]
    rfl
  have hfp : (!entC3.gated && decide ((0 : ℝ) < entC3.contribution)) = true := by
    simp only [entC3, Bool.not_false, Bool.true_and, decide_eq_true_eq]
    norm_num
  have hfn : (!entC3.gated && decide (entC3.contribution < (0 : ℝ))) = false := by
    simp only [entC3, Bool.not_false, Bool.true_and]
    norm_num
  have hfg : entC3.gated = false := rfl
  simp only [Spec.calculateTrustScore, hdd, hded, hbd, if_true, List.map_cons,
    List.map_nil, List.sum_cons, List.sum_nil, add_zero]
  refine ⟨?_, ?_, ?_, ?_, ?_⟩
  · simp only [entC3]
    unfold jsRound
    norm_num
  · simp only [entC3]
    unfold jsRound
    norm_num
  · simp [List.filter_cons, hfp]
  · simp [List.filter_cons, hfn]
  · simp [List.filter_cons, hfg]

-- ─── Claim C6 ────────────────────────────────────────────────────

theorem dedup_singleton (a : NEvent) : Spec.deduplicateAttestations [a] = [a] := by
  unfold Spec.deduplicateAttestations Spec.keepB
  simp [Spec.lexLeB, strLeB_refl]

theorem novel_singleton (a : NEvent) : Spec.novelB [a] a = true := by
  unfold Spec.novelB
  simp

theorem singleton_score_congr (a b : NEvent) (zaps : String → Int)
    (cfg : Spec.ScoreCfg) (res : Option (String → AttesterScore))
    (hparse : Spec.parseAttType a.tags = Spec.parseAttType b.tags)
    (hpk : a.pubkey = b.pubkey) (hid : a.id = b.id)
    (hca : a.created_at = b.created_at) (hc : a.content = b.content) :
    Spec.calculateTrustScore [a] zaps cfg res
      = Spec.calculateTrustScore [b] zaps cfg res := by
  have hrec : Spec.scoreRecord cfg res zaps [a] a
      = Spec.scoreRecord cfg res zaps [b] b := by
    unfold Spec.scoreRecord
    rw [hparse]
    cases hp : Spec.parseAttType b.tags with
    | none => rfl
    | some T =>
      rw [hpk, hid, hca, hc, novel_singleton a, novel_singleton b]
  simp only [Spec.calculateTrustScore, dedup_singleton, ite_self,
    List.filterMap_cons, List.filterMap_nil, hrec]

theorem parse_strict_form (T target : String) :
    Spec.parseAttType [["L", "ai.wot"], ["l", T, "ai.wot"], ["p", target]]
      = some T := by
  simp [Spec.parseAttType, tagAt, NAMESPACE, List.find?]

theorem parse_lenient_form (T target : String)
    (hT : Spec.VALID_TYPES.contains T = true) :
    Spec.parseAttType [["L", "ai.wot"], ["l", T], ["p", target]] = some T := by
  have hT2 : decide (T ∈ Spec.VALID_TYPES) = true := by simpa using hT
  simp [Spec.parseAttType, tagAt, NAMESPACE, List.find?, List.any, hT, hT2]

/-- Claim C6: a record carrying the namespace marker ["L","ai.wot"] and a
two-element type tag ["l",TYPE] with recognised TYPE (no namespace in third
position) is accepted and scored identically to the strict form
["l",TYPE,"ai.wot"]; a record with neither form (no strict tag, and either
no marker or no recognised two-element l-tag) is rejected.
(Modelled from the spec: v0.8.0 lenient tag parser, spec §3 and §4.1.) -/
theorem claim6_lenient_parsing (T target pk eid cnt : String) (ca : Int)
    (zaps : String → Int) (cfg : Spec.ScoreCfg)
    (res : Option (String → AttesterScore))
    (hT : Spec.VALID_TYPES.contains T = true)
    (att : NEvent)
    (hs : att.tags.find? (fun t => tagAt t 0 == "l" && tagAt t 2 == NAMESPACE) = none)
    (hl : att.tags.any (fun t => tagAt t 0 == "L" && tagAt t 1 == NAMESPACE) = true →
      att.tags.find? (fun t => tagAt t 0 == "l" && Spec.VALID_TYPES.contains (tagAt t 1)) = none) :
    (Spec.parseAttType [["L", "ai.wot"], ["l", T], ["p", target]] = some T)
    ∧ (Spec.calculateTrustScore
        [{ id := eid, pubkey := pk, kind := 1985, created_at := ca, content := cnt,
           tags := [["L", "ai.wot"], ["l", T], ["p", target]] }] zaps cfg res
      = Spec.calculateTrustScore
        [{ id := eid, pubkey := pk, kind := 1985, created_at := ca, content := cnt,
           tags := [["L", "ai.wot"], ["l", T, "ai.wot"], ["p", target]] }] zaps cfg res)
    ∧ Spec.parseAttType att.tags = none
    ∧ (Spec.calculateTrustScore [att] zaps cfg res).breakdown = []
    ∧ (Spec.calculateTrustScore [att] zaps cfg res).raw = 0 := by
  have hnone : Spec.parseAttType att.tags = none := by
    unfold Spec.parseAttType
    rw [hs]
    by_cases hm : att.tags.any
        (fun t => tagAt t 0 == "L" && tagAt t 1 == NAMESPACE) = true
    · rw [if_pos hm, hl hm]
      rfl
    · rw [if_neg hm]
  have hrecnone : Spec.scoreRecord cfg res zaps [att] att = none := by
    unfold Spec.scoreRecord
    rw [hnone]
  have hscore : (Spec.calculateTrustScore [att] zaps cfg res).breakdown = []
      ∧ (Spec.calculateTrustScore [att] zaps cfg res).raw = 0 := by
    constructor
    · simp only [Spec.calculateTrustScore, dedup_singleton, ite_self,
        List.filterMap_cons, List.filterMap_nil, hrecnone]
    · simp only [Spec.calculateTrustScore, dedup_singleton, ite_self,
        List.filterMap_cons, List.filterMap_nil, hrecnone, List.map_nil,
        List.sum_nil]
      unfold jsRound
      norm_num
  refine ⟨parse_lenient_form T target hT, ?_, hnone, hscore.1, hscore.2⟩
  have hpp : Spec.parseAttType [["L", "ai.wot"], ["l", T], ["p", target]]
      = Spec.parseAttType [["L", "ai.wot"], ["l", T, "ai.wot"], ["p", target]] := by
    rw [parse_lenient_form T target hT, parse_strict_form]
  exact singleton_score_congr _ _ zaps cfg res hpp rfl rfl rfl rfl

/-- Witness for claim C6 at TYPE = service-quality with a neither-form
record. -/
theorem claim6_lenient_parsing_witness :
    (Spec.parseAttType [["L", "ai.wot"], ["l", "service-quality"], ["p", "B"]]
      = some "service-quality")
    ∧ (Spec.calculateTrustScore
        [{ id := "e1", pubkey := "A", kind := 1985, created_at := 0, content := "ok",
           tags := [["L", "ai.wot"], ["l", "service-quality"], ["p", "B"]] }]
        (fun _ => 0) (Spec.defaultCfg 0) none
      = Spec.calculateTrustScore
        [{ id := "e1", pubkey := "A", kind := 1985, created_at := 0, content := "ok",
           tags := [["L", "ai.wot"], ["l", "service-quality", "ai.wot"], ["p", "B"]] }]
        (fun _ => 0) (Spec.defaultCfg 0) none)
    ∧ Spec.parseAttType noTypeAtt.tags = none
    ∧ (Spec.calculateTrustScore [noTypeAtt] (fun _ => 0) (Spec.defaultCfg 0) none).breakdown = []
    ∧ (Spec.calculateTrustScore [noTypeAtt] (fun _ => 0) (Spec.defaultCfg 0) none).raw = 0 :=
  claim6_lenient_parsing "service-quality" "B" "A" "e1" "ok" 0
    (fun _ => 0) (Spec.defaultCfg 0) none (by decide) noTypeAtt
    (by decide) (fun _ => by decide)

-- ─── Claim C5 ────────────────────────────────────────────────────

theorem charListLtB_trans (xs ys zs : List Char) (h1 : charListLtB xs ys = true)
    (h2 : charListLtB ys zs = true) : charListLtB xs zs = true := by
  induction xs generalizing ys zs with
  | nil =>
    cases zs with
    | nil =>
      cases ys with
      | nil => exact absurd h1 (by simp [charListLtB])
      | cons d ds => exact absurd h2 (by simp [charListLtB])
    | cons e es => simp [charListLtB]
  | cons c cs ih =>
    cases ys with
    | nil => exact absurd h1 (by simp [charListLtB])
    | cons d ds =>
      cases zs with
      | nil => exact absurd h2 (by simp [charListLtB])
      | cons e es =>
        simp only [charListLtB, Bool.or_eq_true, Bool.and_eq_true, beq_iff_eq,
          decide_eq_true_eq] at h1 h2 ⊢
        rcases h1 with h1 | ⟨hcd, h1⟩
        · rcases h2 with h2 | ⟨hde, h2⟩
          · left; omega
          · subst hde; left; exact h1
        · subst hcd
          rcases h2 with h2 | ⟨hde, h2⟩
          · left; exact h2
          · subst hde
            right
            exact ⟨rfl, ih ds es h1 h2⟩

theorem strLeB_trans {a b c : String} (h1 : strLeB a b = true)
    (h2 : strLeB b c = true) : strLeB a c = true := by
  simp only [strLeB, strLtB, Bool.or_eq_true, beq_iff_eq] at h1 h2 ⊢
  rcases h1 with h1 | rfl
  · rcases h2 with h2 | rfl
    · left; exact charListLtB_trans _ _ _ h1 h2
    · left; exact h1
  · exact h2

theorem lexLeB_refl (a : NEvent) : Spec.lexLeB a a = true := by
  simp [Spec.lexLeB, strLeB_refl]

theorem lexLeB_total (a b : NEvent) :
    Spec.lexLeB a b = true ∨ Spec.lexLeB b a = true := by
  unfold Spec.lexLeB
  rcases lt_trichotomy a.created_at b.created_at with h | h | h
  · left; simp [h]
  · rcases strLeB_total a.id b.id with h2 | h2
    · left; simp [h, h2]
    · right; simp [h, h2]
  · right; simp [h]

theorem lexLeB_trans (a b c : NEvent) (h1 : Spec.lexLeB a b = true)
    (h2 : Spec.lexLeB b c = true) : Spec.lexLeB a c = true := by
  unfold Spec.lexLeB at h1 h2 ⊢
  simp only [Bool.or_eq_true, Bool.and_eq_true, decide_eq_true_eq,
    beq_iff_eq] at h1 h2 ⊢
  rcases h1 with h1 | ⟨h1e, h1s⟩
  · rcases h2 with h2 | ⟨h2e, h2s⟩
    · left; omega
    · left; omega
  · rcases h2 with h2 | ⟨h2e, h2s⟩
    · left; omega
    · right; exact ⟨by omega, strLeB_trans h1s h2s⟩

theorem lexLeB_antisymm (a b : NEvent) (h1 : Spec.lexLeB a b = true)
    (h2 : Spec.lexLeB b a = true) :
    a.created_at = b.created_at ∧ a.id = b.id := by
  unfold Spec.lexLeB at h1 h2
  simp only [Bool.or_eq_true, Bool.and_eq_true, decide_eq_true_eq,
    beq_iff_eq] at h1 h2
  rcases h1 with h1 | ⟨h1e, h1s⟩
  · rcases h2 with h2 | ⟨h2e, h2s⟩
    · exfalso; omega
    · exfalso; omega
  · rcases h2 with h2 | ⟨h2e, h2s⟩
    · exfalso; omega
    · exact ⟨h1e, strLeB_antisymm h1s h2s⟩

theorem exists_lexLeB_max (l : List NEvent) (hne : l ≠ []) :
    ∃ m ∈ l, ∀ b ∈ l, Spec.lexLeB b m = true := by
  induction l with
  | nil => exact absurd rfl hne
  | cons a as ih =>
    by_cases hasnil : as = []
    · subst hasnil
      refine ⟨a, by simp, ?_⟩
      intro b hb
      rw [List.mem_singleton] at hb
      subst hb
      exact lexLeB_refl b
    · obtain ⟨m, hm, hmax⟩ := ih hasnil
      by_cases hcmp : Spec.lexLeB a m = true
      · refine ⟨m, List.mem_cons_of_mem a hm, ?_⟩
        intro b hb
        rcases List.mem_cons.mp hb with rfl | hb2
        · exact hcmp
        · exact hmax b hb2
      · have hma : Spec.lexLeB m a = true := by
          rcases lexLeB_total a m with h | h
          · exact absurd h hcmp
          · exact h
        refine ⟨a, List.mem_cons_self a as, ?_⟩
        intro b hb
        rcases List.mem_cons.mp hb with rfl | hb2
        · exact lexLeB_refl b
        · exact lexLeB_trans b m a (hmax b hb2) hma

theorem scoreRecord_eventId (cfg : Spec.ScoreCfg)
    (res : Option (String → AttesterScore)) (zaps : String → Int)
    (orig : List NEvent) (x : NEvent) (e : Spec.SpecEntry)
    (h : Spec.scoreRecord cfg res zaps orig x = some e) : e.eventId = x.id := by
  cases hp : Spec.parseAttType x.tags with
  | none =>
    simp only [Spec.scoreRecord, hp] at h
    exact absurd h (by simp)
  | some T =>
    simp only [Spec.scoreRecord, hp] at h
    by_cases hv : Spec.VALID_TYPES.contains T = true
    · rw [if_pos hv] at h
      split_ifs at h <;> (rw [Option.some_inj] at h; subst h; rfl)
    · rw [if_neg hv] at h
      exact absurd h (by simp)

theorem scoreRecord_isSome (cfg : Spec.ScoreCfg)
    (res : Option (String → AttesterScore)) (zaps : String → Int)
    (orig : List NEvent) (x : NEvent) (T : String)
    (hp : Spec.parseAttType x.tags = some T)
    (hv : Spec.VALID_TYPES.contains T = true) :
    ∃ e, Spec.scoreRecord cfg res zaps orig x = some e := by
  simp only [Spec.scoreRecord, hp]
  rw [if_pos hv]
  split_ifs <;> exact ⟨_, rfl⟩

/-- Claim C5: with deduplication enabled, every (author, target, type) group
of the input has exactly one surviving record — the one with the greatest
created_at, ties broken by lexicographic max of id — which is the one that is
scored (it appears in the breakdown when its type is recognised), while
every non-surviving record is excluded from the breakdown.
(Modelled from the spec: v0.8.0 kernel, spec §4.1 step 1.) -/
theorem claim5_deduplication (atts : List NEvent) (zaps : String → Int)
    (cfg : Spec.ScoreCfg) (res : Option (String → AttesterScore))
    (hdedup : cfg.deduplicate = true)
    (hids : ∀ b ∈ atts, ∀ c ∈ atts, b.id = c.id → b = c)
    (a : NEvent) (ha : a ∈ atts) :
    ∃ m, (m ∈ atts ∧ Spec.groupKey m = Spec.groupKey a ∧ Spec.keepB atts m = true)
      ∧ (∀ b ∈ atts, Spec.groupKey b = Spec.groupKey a → Spec.lexLeB b m = true)
      ∧ (∀ b ∈ atts, Spec.groupKey b = Spec.groupKey a →
          Spec.keepB atts b = true → b = m)
      ∧ (∀ T, Spec.parseAttType m.tags = some T →
          Spec.VALID_TYPES.contains T = true →
          ∃ e ∈ (Spec.calculateTrustScore atts zaps cfg res).breakdown,
            e.eventId = m.id)
      ∧ (∀ b ∈ atts, Spec.keepB atts b = false →
          ∀ e ∈ (Spec.calculateTrustScore atts zaps cfg res).breakdown,
            e.eventId ≠ b.id) := by
  have hbd : (Spec.calculateTrustScore atts zaps cfg res).breakdown
      = (atts.filter (Spec.keepB atts)).filterMap
          (Spec.scoreRecord cfg res zaps atts) := by
    simp only [Spec.calculateTrustScore, Spec.deduplicateAttestations, hdedup,
      if_true]
  set G := atts.filter (fun b => decide (Spec.groupKey b = Spec.groupKey a))
    with hG
  have haG : a ∈ G := by
    rw [hG, List.mem_filter]
    exact ⟨ha, by simp⟩
  have hGne : G ≠ [] := fun h => by rw [h] at haG; exact absurd haG (List.not_mem_nil a)
  obtain ⟨m, hmG, hmax⟩ := exists_lexLeB_max G hGne
  rw [hG, List.mem_filter] at hmG
  obtain ⟨hmatts, hmkey⟩ := hmG
  have hmkey2 : Spec.groupKey m = Spec.groupKey a := by simpa using hmkey
  have hgmax : ∀ b ∈ atts, Spec.groupKey b = Spec.groupKey a →
      Spec.lexLeB b m = true := by
    intro b hb hk
    apply hmax
    rw [hG, List.mem_filter]
    exact ⟨hb, by simp [hk]⟩
  have hkeep : Spec.keepB atts m = true := by
    unfold Spec.keepB
    rw [List.all_eq_true]
    intro b hb
    by_cases hk : Spec.groupKey b = Spec.groupKey m
    · have : Spec.lexLeB b m = true := hgmax b hb (hk.trans hmkey2)
      simp [this]
    · simp [hk]
  refine ⟨m, ⟨hmatts, hmkey2, hkeep⟩, hgmax, ?_, ?_, ?_⟩
  · intro b hb hk hkeepb
    have hbm : Spec.lexLeB b m = true := hgmax b hb hk
    have hmb : Spec.lexLeB m b = true := by
      unfold Spec.keepB at hkeepb
      rw [List.all_eq_true] at hkeepb
      have := hkeepb m hmatts
      simp only [Bool.or_eq_true, Bool.not_eq_true', decide_eq_false_iff_not] at this
      rcases this with h | h
      · exact absurd (hmkey2.trans hk.symm) h
      · exact h
    obtain ⟨hce, hide⟩ := lexLeB_antisymm b m hbm hmb
    exact hids b hb m hmatts hide
  · intro T hp hv
    obtain ⟨e, he⟩ := scoreRecord_isSome cfg res zaps atts m T hp hv
    refine ⟨e, ?_, scoreRecord_eventId cfg res zaps atts m e he⟩
    rw [hbd, List.mem_filterMap]
    exact ⟨m, List.mem_filter.mpr ⟨hmatts, hkeep⟩, he⟩
  · intro b hb hkeepb e hemem heid
    rw [hbd, List.mem_filterMap] at hemem
    obtain ⟨x, hx, hxe⟩ := hemem
    rw [List.mem_filter] at hx
    have hxid : e.eventId = x.id := scoreRecord_eventId cfg res zaps atts x e hxe
    have hxb : x = b := hids x hx.1 b hb (by rw [← hxid, heid])
    rw [hxb] at hx
    rw [hx.2] at hkeepb
    exact absurd hkeepb (by simp)

/-- Earlier record of the duplicated pair. -/
def attD1 : NEvent :=
  { id := "old1", pubkey := "A", kind := 1985, created_at := 100, content := "ok",
    tags := [["L", "ai.wot"], ["l", "service-quality", "ai.wot"], ["p", "T"]] }

/-- Later record of the duplicated pair (same author, target and type). -/
def attD2 : NEvent :=
  { id := "new1", pubkey := "A", kind := 1985, created_at := 200, content := "ok",
    tags := [["L", "ai.wot"], ["l", "service-quality", "ai.wot"], ["p", "T"]] }

/-- Witness for claim C5 on a concrete duplicated pair. -/
theorem claim5_deduplication_witness :
    ∃ m, (m ∈ [attD1, attD2] ∧ Spec.groupKey m = Spec.groupKey attD1
          ∧ Spec.keepB [attD1, attD2] m = true)
      ∧ (∀ b ∈ [attD1, attD2], Spec.groupKey b = Spec.groupKey attD1 →
          Spec.lexLeB b m = true)
      ∧ (∀ b ∈ [attD1, attD2], Spec.groupKey b = Spec.groupKey attD1 →
          Spec.keepB [attD1, attD2] b = true → b = m)
      ∧ (∀ T, Spec.parseAttType m.tags = some T →
          Spec.VALID_TYPES.contains T = true →
          ∃ e ∈ (Spec.calculateTrustScore [attD1, attD2] (fun _ => 0)
              (Spec.defaultCfg 200) none).breakdown, e.eventId = m.id)
      ∧ (∀ b ∈ [attD1, attD2], Spec.keepB [attD1, attD2] b = false →
          ∀ e ∈ (Spec.calculateTrustScore [attD1, attD2] (fun _ => 0)
              (Spec.defaultCfg 200) none).breakdown, e.eventId ≠ b.id) :=
  claim5_deduplication [attD1, attD2] (fun _ => 0) (Spec.defaultCfg 200) none
    rfl (by decide) attD1 (by decide)

end AiWot
